import Mathlib

/-!
# Verification of the metro-proximity service core (`src/app.py`)

Shallow embedding of the core logic of `app.py`:

* Python `float` values are modelled by `PyFloat` — an exact rational for
  finite values plus `inf`, `ninf`, `nan`.  Decimal literals are represented
  exactly (binary-float rounding is not modelled; no claim exercises it).
* Python strings are manipulated at the `List Char` level; `str.split`,
  `str.strip`, `str.replace`, `str.isupper`, `str.lower`/`upper` and the
  `in` substring test are each given a faithful ASCII-level model.
* `geopandas`/`shapely` geometry is abstracted: each region's geometry is a
  bundle of the three operations the program uses on it — point containment
  (`contains`, true exactly for points strictly inside the polygon),
  boundary distance in the projected CRS (`dist`), and the nearest boundary
  point in geographic coordinates (`nearestPt`) — together with the two
  facts about shapely the program relies on: the distance from a point to a
  polygon is `0` when the point is inside it, and distances are never
  negative.  The EPSG:4326→3857 reprojection is a fixed bijection on
  points, so it is absorbed into these per-region functions.
* `pandas`' `Series.idxmin` followed by `DataFrame.loc` (first row
  attaining the minimum, NaN entries skipped, `ValueError` on an empty or
  all-NaN column) is modelled by `rowmin`.
-/

set_option allowUnsafeReducibility true in
attribute [semireducible] Rat.mul Rat.inv Rat.add Rat.sub

/-- A Python `float` value: an exact rational, `inf`, `-inf`, or `nan`. -/
inductive PyFloat where
  | fin (q : ℚ)
  | inf
  | ninf
  | nan
deriving DecidableEq, Repr

namespace PyFloat

def isNan : PyFloat → Bool
  | .nan => true
  | _ => false

end PyFloat

/-- IEEE-style `<=` on Python floats: any comparison with `nan` is false. -/
def pyLe : PyFloat → PyFloat → Bool
  | .nan, _ => false
  | _, .nan => false
  | .ninf, _ => true
  | _, .ninf => false
  | .fin a, .fin b => decide (a ≤ b)
  | _, .inf => true
  | .inf, _ => false

/-- The conversion constant used throughout `app.py`: 1 mile = 1609.34 m. -/
def mile : ℚ := 160934 / 100

/-- `x * 1609.34` (miles → meters, line 495 of `app.py`). -/
def pyMulMile : PyFloat → PyFloat
  | .fin q => .fin (q * mile)
  | .inf => .inf
  | .ninf => .ninf
  | .nan => .nan

/-- `x / 1609.34` (meters → miles, lines 531/560/581 of `app.py`). -/
def pyDivMile : PyFloat → PyFloat
  | .fin q => .fin (q / mile)
  | .inf => .inf
  | .ninf => .ninf
  | .nan => .nan

/-- Python `round(x, 2)`: rounding to the nearest multiple of `1/100`, ties
to even (Python's documented behavior; the binary-float representation error
that can shift a near-tie is not modelled — no claim evaluates `round` at a
tie). -/
def round2 : PyFloat → PyFloat
  | .fin q =>
    let n : ℚ := q * 100
    let d : ℤ := (n.den : ℤ)
    let f : ℤ := n.num.fdiv d
    let r : ℤ := n.num - f * d
    let v : ℤ :=
      if 2 * r < d then f
      else if d < 2 * r then f + 1
      else if f % 2 = 0 then f else f + 1
    .fin ((v : ℚ) / 100)
  | x => x

/-- A query point as the pair of parsed `(lat, lon)` float values.  The
projection of the point to EPSG:3857 is absorbed into the abstract geometry
operations. -/
def Point : Type := PyFloat × PyFloat
deriving DecidableEq

/-! ## Character-level models of the Python string operations used. -/

/-- Python `str.strip()` restricted to ASCII whitespace. -/
def trimChars (cs : List Char) : List Char :=
  ((cs.dropWhile Char.isWhitespace).reverse.dropWhile Char.isWhitespace).reverse

/-- Python's substring test `pat in s` (contiguous substring). -/
def isSub : List Char → List Char → Bool
  | pat, [] => pat.isEmpty
  | pat, c :: cs => pat.isPrefixOf (c :: cs) || isSub pat cs

/-- Python `str.split(sep)` generalized to a character predicate: splits at
every character satisfying `sep`, keeping empty pieces; `"".split(",")`
yields `[""]`. -/
def splitBy (sep : Char → Bool) : List Char → List (List Char)
  | [] => [[]]
  | c :: cs =>
    if sep c then [] :: splitBy sep cs
    else
      match splitBy sep cs with
      | t :: ts => (c :: t) :: ts
      | [] => [[c]]

/-- Python `s.replace(pat, '')`: deletes non-overlapping occurrences of
`pat` left to right (scanning resumes after each deleted occurrence).
Structural recursion on a fuel bounded by the string length (each step
consumes at least one character), so the kernel can evaluate it. -/
def removeAll (pat : List Char) (cs : List Char) : List Char :=
  go cs.length cs
where
  go : ℕ → List Char → List Char
    | _, [] => []
    | 0, l => l
    | fuel + 1, c :: cs =>
      if pat ≠ [] ∧ pat.isPrefixOf (c :: cs) then
        go fuel ((c :: cs).drop pat.length)
      else
        c :: go fuel cs

/-- Python `str.isupper()` for ASCII: at least one cased (alphabetic)
character and every cased character uppercase.  Note `"A1".isupper()` is
`True` in Python: digits are not cased. -/
def pyIsUpper (cs : List Char) : Bool :=
  cs.any (fun c => c.isAlpha) && cs.all (fun c => !c.isAlpha || c.isUpper)

def digitsToNat (ds : List Char) : ℕ :=
  ds.foldl (fun a c => a * 10 + (c.toNat - '0'.toNat)) 0

/-- The numeric-literal part of Python `float(s)` (after sign removal):
`digits [. digits]` or `. digits`, with an optional `e`/`E` exponent.
Values are exact rationals (binary-float rounding/overflow not modelled;
digit-group underscores not modelled — no claim exercises either). -/
def parseDecimal (neg : Bool) (cs : List Char) : Option PyFloat :=
  let ip := cs.takeWhile Char.isDigit
  let r1 := cs.dropWhile Char.isDigit
  let fp := match r1 with
    | '.' :: rest => rest.takeWhile Char.isDigit
    | _ => []
  let r2 := match r1 with
    | '.' :: rest => rest.dropWhile Char.isDigit
    | _ => r1
  if ip.isEmpty && fp.isEmpty then none
  else
    let mant : ℚ := (digitsToNat ip : ℚ) + (digitsToNat fp : ℚ) / (10 : ℚ) ^ fp.length
    match r2 with
    | [] => some (.fin (if neg then -mant else mant))
    | e :: rest =>
      if e = 'e' ∨ e = 'E' then
        let (eneg, rest2) : Bool × List Char :=
          match rest with
          | '+' :: r => (false, r)
          | '-' :: r => (true, r)
          | _ => (false, rest)
        let eds := rest2.takeWhile Char.isDigit
        let r3 := rest2.dropWhile Char.isDigit
        if eds.isEmpty || !r3.isEmpty then none
        else
          let ex := digitsToNat eds
          let v := if eneg then mant / (10 : ℚ) ^ ex else mant * (10 : ℚ) ^ ex
          some (.fin (if neg then -v else v))
      else none

/-- Python `float(s)` on a string argument: strips whitespace, handles an
optional sign, the case-insensitive special spellings `inf`/`infinity`/
`nan`, and decimal literals.  `none` models a `ValueError`. -/
def pyFloat? (s : String) : Option PyFloat :=
  let cs := trimChars s.data
  let (neg, cs') : Bool × List Char :=
    match cs with
    | '+' :: rest => (false, rest)
    | '-' :: rest => (true, rest)
    | _ => (false, cs)
  let lower := cs'.map Char.toLower
  if lower = "inf".data ∨ lower = "infinity".data then
    some (if neg then .ninf else .inf)
  else if lower = "nan".data then some .nan
  else parseDecimal neg cs'

/-! ## The exclusion set and jurisdiction extraction (`app.py` 15–56). -/

/-- `EXCLUDED_STATES` (lines 15–18), in source-literal order.  The Python
object is a `set`, whose iteration order is unspecified; every statement
proved below is independent of that order (each exercised input matches at
most one member). -/
def EXCLUDED_STATES : List String :=
  ["HI", "AK", "FL", "NY", "NJ", "ND", "SD",
   "Hawaii", "Alaska", "Florida", "New York", "New Jersey",
   "North Dakota", "South Dakota"]

/-- The token-matching step of the loop body in `get_state_from_coords`
(lines 38–46): a trimmed token is returned if it has exactly two characters
and `isupper()`; otherwise the first exclusion-set member occurring in it
as a substring is returned. -/
def tokenState (t : List Char) : Option String :=
  if t.length = 2 ∧ pyIsUpper t then some ⟨t⟩
  else EXCLUDED_STATES.find? (fun st => isSub st.data t)

/-- The name-mining part of `get_state_from_coords` (lines 35–46):
`name.replace('-', ',').split(',')`, then for each stripped part return the
first match per `tokenState`. -/
def get_state_from_name (name : String) : Option String :=
  let parts := splitBy (fun c => c = ',') (name.data.map (fun c => if c = '-' then ',' else c))
  go parts
where
  go : List (List Char) → Option String
    | [] => none
    | p :: ps =>
      match tokenState (trimChars p) with
      | some s => some s
      | none => go ps

/-- `is_excluded_state` (lines 52–56): falsy strings are not excluded;
otherwise membership of the string or its ASCII uppercasing in
`EXCLUDED_STATES`. -/
def is_excluded_state (state : String) : Bool :=
  if state = "" then false
  else decide (state ∈ EXCLUDED_STATES) || decide (state.toUpper ∈ EXCLUDED_STATES)

/-! ## Regions and abstract geometry. -/

/-- The operations `app.py` performs on one region's shapely geometry,
together with the two shapely facts the program relies on.  `contains` is
shapely's strict containment (false for boundary points); `dist` is the
boundary distance of the projected point (0 inside the polygon); `nearestPt`
is the nearest boundary point in geographic coordinates (line 538),
returned as `[lat, lon]` per line 539. -/
structure Geometry where
  contains : Point → Bool
  dist : Point → PyFloat
  nearestPt : Point → Point
  dist_zero : ∀ p, contains p = true → dist p = .fin 0
  dist_nonneg : ∀ p q, dist p = .fin q → 0 ≤ q

/-- One row of the loaded GeoDataFrame: the columns `app.py` reads. -/
structure Region where
  name : String
  cbsafp : String
  geom : Geometry

/-- The rational value of a region's distance at `p`; meaningful under the
hypothesis that the distance is finite (junk value 0 otherwise). -/
def qdist (r : Region) (p : Point) : ℚ :=
  match r.geom.dist p with
  | .fin q => q
  | _ => 0

/-- `get_state_from_coords` (lines 20–50) on an already-loaded store: the
first region (in load order) whose geometry contains the point has its name
mined for a state token; no containing region, or no matching token, gives
`None`.  The internal `try/except` returns `None` on geometry failure,
which the pure model has no analogue of. -/
def get_state_from_coords (regions : List Region) (p : Point) : Option String :=
  match regions.find? (fun r => r.geom.contains p) with
  | some r => get_state_from_name r.name
  | none => none

/-- The exclusion verdict of lines 504–506: `state and
is_excluded_state(state)` (the truthiness test is subsumed by
`is_excluded_state`'s own empty-string check); `some s` means the query is
short-circuited with excluded state `s`. -/
def excluded_state_of (regions : List Region) (p : Point) : Option String :=
  match get_state_from_coords regions p with
  | some s => if is_excluded_state s then some s else none
  | none => none

/-! ## The pandas idxmin/loc model. -/

/-- `df.loc[df['distance'].idxmin()]`: the first row whose value attains
the minimum, NaN values skipped; `none` models the `ValueError` that
`idxmin` raises on an empty (or all-NaN) column. -/
def rowmin : List (Region × PyFloat) → Option (Region × PyFloat)
  | [] => none
  | x :: xs =>
    match rowmin xs with
    | none => if x.2.isNan then none else some x
    | some y => if x.2.isNan then some y else if pyLe x.2 y.2 then some x else some y

/-- Rational-valued variant of `rowmin` used to reason about runs in which
every distance is finite (the only runs the claims exercise). -/
def rowminQ {α : Type} : List (α × ℚ) → Option (α × ℚ)
  | [] => none
  | x :: xs =>
    match rowminQ xs with
    | none => some x
    | some y => if x.2 ≤ y.2 then some x else some y

/-! ## Allow-list filtering and loading (`app.py` 58–110). -/

/-- The normalization `matches_target` applies to one allow-list entry
(lines 93–96): the part before the first comma, lowercased, stripped,
`' msa'` occurrences removed, stripped again. -/
def normTarget (t : String) : List Char :=
  trimChars (removeAll " msa".data
    (trimChars (((splitBy (fun c => c = ',') t.data).headD []).map Char.toLower)))

/-- `matches_target` (lines 90–99): a census record name matches when some
allow-list entry's normalized main part occurs as a substring of the
lowercased record name.  (The Python loop runs over a `set`; the result is
a pure existence test, so iteration order is irrelevant.) -/
def matches_target (target_names : List String) (census_name : String) : Bool :=
  target_names.any (fun t => isSub (normTarget t) (census_name.data.map Char.toLower))

/-- The filtering step of `load_metro_data` (lines 88–105): with a
non-empty target list keep the records matching it, otherwise keep all. -/
def filter_regions (target_names : List String) (rs : List Region) : List Region :=
  if target_names.isEmpty then rs else rs.filter (fun r => matches_target target_names r.name)

/-- What the filesystem would supply to `load_metro_data`: either the
shapefile is missing, or it yields raw records together with the allow-list
names already read from `target_metros.txt` (blank/`Other`/`Rural` lines
dropped, per lines 78–83). -/
inductive LoadEnv where
  | missing
  | found (raw : List Region) (target_names : List String)

/-- `load_metro_data` (lines 64–110) as a transition on the `metro_data`
global: a missing shapefile leaves the store untouched (only a warning is
printed); otherwise the store becomes the filtered record list.  CRS
conversion (line 108) is absorbed into the geometry abstraction. -/
def load_metro_data (env : LoadEnv) (st : Option (List Region)) : Option (List Region) :=
  match env with
  | .missing => st
  | .found raw target_names => some (filter_regions target_names raw)

/-- `ensure_metro_data_loaded` (lines 58–62).  The boolean records whether
`load_metro_data` was invoked by this call, to let the statements below
count load attempts. -/
def ensure_metro_data_loaded (env : LoadEnv) (st : Option (List Region)) :
    Option (List Region) × Bool :=
  match st with
  | none => (load_metro_data env none, true)
  | some d => (some d, false)

/-! ## The `/check-proximity` handler (`app.py` 478–595). -/

/-- The fields of the `nearest_metro` JSON object (lines 549–554/568–573). -/
structure NearestInfo where
  name : String
  cbsa_code : String
  distance_to_edge_miles : PyFloat
  edge_coords : Point
deriving DecidableEq

/-- One entry of `all_nearby_metros` (lines 579–583). -/
structure MetroInfo where
  name : String
  distance_miles : PyFloat
  cbsa_code : String
deriving DecidableEq

/-- The possible JSON responses of `check_proximity`.
  * `invalidParams` — the 400 response `"Invalid parameters. …"` of the
    `except ValueError` handler (line 588);
  * `internalError` — the 500 response carrying `str(e)` of the generic
    `except Exception` handler (line 592);
  * `dataNotLoaded` — the 500 `"Metro data not loaded"` response (line 498);
  * `excluded` — the exclusion short-circuit (lines 508–513): JSON keys
    `excluded: true`, `excluded_state`, `within_range`, `message` — note it
    has no distance or nearest-metro fields;
  * `outOfRange` — lines 546–556: `within_range`, `is_inside_metro`,
    `nearest_metro` (the message of line 555 repeats the two numbers
    already present and is not modelled);
  * `inRange` — lines 565–586: `within_range`, `is_inside_metro`,
    `nearest_metro`, `all_nearby_metros`. -/
inductive Response where
  | invalidParams
  | internalError (msg : String)
  | dataNotLoaded
  | excluded (excluded_state : String) (within_range : Bool) (message : String)
  | outOfRange (within_range is_inside_metro : Bool) (nearest_metro : NearestInfo)
  | inRange (within_range is_inside_metro : Bool) (nearest_metro : NearestInfo)
      (all_nearby_metros : List MetroInfo)
deriving DecidableEq

/-- Lines 518–586: the distance computation run when the query is not
short-circuited.  `rowmin` on an empty store returns `none`, modelling the
`ValueError` pandas raises, which the handler turns into the 400
`invalidParams` response. -/
def proximity_core (regions : List Region) (p : Point) (maxMiles : PyFloat) : Response :=
  let maxMeters := pyMulMile maxMiles
  let rows := regions.map (fun r => (r, r.geom.dist p))
  match rowmin rows with
  | none => .invalidParams
  | some nO =>
    let edge := nO.1.geom.nearestPt p
    let nearby := rows.filter (fun rd => pyLe rd.2 maxMeters)
    if nearby.isEmpty then
      .outOfRange false false ⟨nO.1.name, nO.1.cbsafp, round2 (pyDivMile nO.2), edge⟩
    else
      match rowmin nearby with
      | none => .invalidParams
      | some nr =>
        let isInside := nr.1.geom.contains p
        .inRange true isInside
          ⟨nr.1.name, nr.1.cbsafp,
            if isInside then .fin 0 else round2 (pyDivMile nr.2), edge⟩
          (nearby.map (fun rd => ⟨rd.1.name, round2 (pyDivMile rd.2), rd.1.cbsafp⟩))

/-- The Python `str(e)` of `float(None)`: the `TypeError` message produced
when a required query parameter is absent. -/
def floatNoneMsg : String :=
  "float() argument must be a string or a real number, not 'NoneType'"

/-- `check_proximity` (lines 478–595).  Arguments are the raw query
parameters (`request.args.get` yields `none` when absent); `max_distance`
defaults to `50`.  A missing `lat`/`lon` makes `float(None)` raise
`TypeError`, which falls through to the generic 500 handler; an unparseable
string raises `ValueError`, caught as the 400 response. -/
def check_proximity (store : Option (List Region))
    (latArg lonArg maxArg : Option String) : Response :=
  match latArg with
  | none => .internalError floatNoneMsg
  | some latS =>
    match pyFloat? latS with
    | none => .invalidParams
    | some lat =>
      match lonArg with
      | none => .internalError floatNoneMsg
      | some lonS =>
        match pyFloat? lonS with
        | none => .invalidParams
        | some lon =>
          match (match maxArg with
                 | none => some (PyFloat.fin 50)
                 | some ms => pyFloat? ms) with
          | none => .invalidParams
          | some maxMiles =>
            match store with
            | none => .dataNotLoaded
            | some regions =>
              let p : Point := (lat, lon)
              match excluded_state_of regions p with
              | some s => .excluded s false ("We do not lend in " ++ s)
              | none => proximity_core regions p maxMiles

/-! ## Supporting lemmas: first-minimum selection. -/

/-- The region–rational-distance rows of a store at a query point;
`proximity_core`'s rows coincide with these whenever every distance is
finite. -/
def qrows (regions : List Region) (p : Point) : List (Region × ℚ) :=
  regions.map (fun r => (r, qdist r p))

theorem rowminQ_eq_none {α : Type} {l : List (α × ℚ)} :
    rowminQ l = none ↔ l = [] := by
  cases l with
  | nil => simp [rowminQ]
  | cons x xs =>
    simp only [rowminQ]
    cases rowminQ xs with
    | none => simp
    | some y => by_cases h : x.2 ≤ y.2 <;> simp [h]

theorem rowminQ_mem {α : Type} : ∀ {l : List (α × ℚ)} {y},
    rowminQ l = some y → y ∈ l := by
  intro l
  induction l with
  | nil => intro y h; simp [rowminQ] at h
  | cons x xs ih =>
    intro y h
    simp only [rowminQ] at h
    cases hx : rowminQ xs with
    | none => rw [hx] at h; simp at h; simp [h.symm]
    | some z =>
      rw [hx] at h
      by_cases hc : x.2 ≤ z.2
      · simp [hc] at h; simp [h.symm]
      · simp [hc] at h
        exact List.mem_cons_of_mem _ (h ▸ ih hx)

theorem rowminQ_min {α : Type} : ∀ {l : List (α × ℚ)} {y},
    rowminQ l = some y → ∀ z ∈ l, y.2 ≤ z.2 := by
  intro l
  induction l with
  | nil => intro y h; simp [rowminQ] at h
  | cons x xs ih =>
    intro y h z hz
    simp only [rowminQ] at h
    cases hx : rowminQ xs with
    | none =>
      rw [hx] at h; simp at h
      rcases List.mem_cons.mp hz with rfl | hz'
      · exact h ▸ le_refl _
      · exact absurd (rowminQ_eq_none.mp hx ▸ hz') (List.not_mem_nil z)
    | some w =>
      rw [hx] at h
      by_cases hc : x.2 ≤ w.2
      · simp [hc] at h
        rcases List.mem_cons.mp hz with rfl | hz'
        · exact h ▸ le_refl _
        · exact h ▸ le_trans hc (ih hx z hz')
      · simp [hc] at h
        rcases List.mem_cons.mp hz with rfl | hz'
        · exact h ▸ le_of_lt (lt_of_not_le hc)
        · exact h ▸ ih hx z hz'

theorem rowminQ_filter {α : Type} (m : ℚ) : ∀ (l : List (α × ℚ)),
    (∃ z ∈ l, z.2 ≤ m) →
    rowminQ (l.filter (fun z => decide (z.2 ≤ m))) = rowminQ l := by
  intro l
  induction l with
  | nil => intro h; simp at h
  | cons x xs ih =>
    intro h
    by_cases hxm : x.2 ≤ m
    · rw [List.filter_cons_of_pos (by simpa using hxm)]
      by_cases hex : ∃ z ∈ xs, z.2 ≤ m
      · simp only [rowminQ, ih hex]
      · have hnil : xs.filter (fun z => decide (z.2 ≤ m)) = [] := by
          rw [List.filter_eq_nil_iff]
          intro a ha
          simp only [decide_eq_true_eq]
          exact fun hc => hex ⟨a, ha, hc⟩
        rw [hnil]
        simp only [rowminQ]
        cases hxs : rowminQ xs with
        | none => rfl
        | some z =>
          have hz : z ∈ xs := rowminQ_mem hxs
          have : ¬ z.2 ≤ m := fun hc => hex ⟨z, hz, hc⟩
          have hle : x.2 ≤ z.2 := le_trans hxm (le_of_lt (lt_of_not_le this))
          simp [hle]
    · rw [List.filter_cons_of_neg (by simpa using hxm)]
      have hex : ∃ z ∈ xs, z.2 ≤ m := by
        rcases h with ⟨z, hz, hzm⟩
        rcases List.mem_cons.mp hz with rfl | hz'
        · exact absurd hzm hxm
        · exact ⟨z, hz', hzm⟩
      rw [ih hex]
      rcases hex with ⟨z1, hz1, hz1m⟩
      cases hxs : rowminQ xs with
      | none => exact absurd (rowminQ_eq_none.mp hxs ▸ hz1) (List.not_mem_nil z1)
      | some w =>
        have hwm : w.2 ≤ m := le_trans (rowminQ_min hxs z1 hz1) hz1m
        have : ¬ x.2 ≤ w.2 := fun hc => hxm (le_trans hc hwm)
        simp only [rowminQ, hxs, this, if_false]

/-! ## Transfer lemmas: finite-distance runs. -/

theorem rowmin_map_fin : ∀ (l : List (Region × ℚ)),
    rowmin (l.map (fun x => (x.1, PyFloat.fin x.2))) =
      (rowminQ l).map (fun x => (x.1, PyFloat.fin x.2)) := by
  intro l
  induction l with
  | nil => rfl
  | cons x xs ih =>
    simp only [List.map_cons, rowmin, rowminQ, ih]
    cases hx : rowminQ xs with
    | none => simp [PyFloat.isNan]
    | some z =>
      simp only [Option.map_some']
      by_cases hc : x.2 ≤ z.2
      · simp [PyFloat.isNan, pyLe, hc]
      · simp [PyFloat.isNan, pyLe, hc]

theorem filter_map_fin (mm : ℚ) (l : List (Region × ℚ)) :
    (l.map (fun x => (x.1, PyFloat.fin x.2))).filter
        (fun rd => pyLe rd.2 (PyFloat.fin mm)) =
      (l.filter (fun z => decide (z.2 ≤ mm))).map (fun x => (x.1, PyFloat.fin x.2)) := by
  rw [List.filter_map]
  congr 1

/-- When every region's distance at `p` is finite, the rows that
`proximity_core` builds are exactly the `qrows` rows with coordinates cast
into `PyFloat`. -/
theorem rows_eq_qrows (regions : List Region) (p : Point)
    (hfin : ∀ r ∈ regions, ∃ q : ℚ, r.geom.dist p = .fin q) :
    regions.map (fun r => (r, r.geom.dist p)) =
      (qrows regions p).map (fun x => (x.1, PyFloat.fin x.2)) := by
  unfold qrows
  rw [List.map_map]
  apply List.map_congr_left
  intro r hr
  rcases hfin r hr with ⟨q, hq⟩
  simp only [Function.comp_apply, qdist, hq]

/-- A member of `qrows` is a region of the store paired with its `qdist`. -/
theorem mem_qrows {regions : List Region} {p : Point} {z : Region × ℚ}
    (hz : z ∈ qrows regions p) : z.1 ∈ regions ∧ z.2 = qdist z.1 p := by
  unfold qrows at hz
  rcases List.mem_map.mp hz with ⟨r, hr, hrz⟩
  constructor
  · rw [← hrz]; exact hr
  · rw [← hrz]

/-! ## Behavior of `proximity_core` on finite-distance runs. -/

/-- When every region's boundary distance exceeds the radius, the handler
reports the `within_range=false` shape built from the row `rowminQ` selects
(the first row of globally minimal distance). -/
theorem proximity_core_out (regions : List Region) (p : Point) (m : ℚ) (y : Region × ℚ)
    (hfin : ∀ r ∈ regions, ∃ q : ℚ, r.geom.dist p = .fin q)
    (hfar : ∀ r ∈ regions, ¬ qdist r p ≤ m * mile)
    (hy : rowminQ (qrows regions p) = some y) :
    proximity_core regions p (.fin m) =
      .outOfRange false false
        ⟨y.1.name, y.1.cbsafp, round2 (.fin (y.2 / mile)), y.1.geom.nearestPt p⟩ := by
  have hnil : (qrows regions p).filter (fun z => decide (z.2 ≤ m * mile)) = [] := by
    rw [List.filter_eq_nil_iff]
    intro z hz
    rcases mem_qrows hz with ⟨hz1, hz2⟩
    simp only [decide_eq_true_eq]
    rw [hz2]
    exact hfar z.1 hz1
  simp only [proximity_core, rows_eq_qrows regions p hfin, rowmin_map_fin, hy,
    Option.map_some', pyMulMile, filter_map_fin, hnil, List.map_nil,
    List.isEmpty_nil, if_true, pyDivMile]

/-- When some region is within the radius, the handler reports the
`within_range=true` shape built from the same globally minimal row (the
filtered minimum coincides with the global one), and lists every
within-radius row. -/
theorem proximity_core_in (regions : List Region) (p : Point) (m : ℚ) (y : Region × ℚ)
    (hfin : ∀ r ∈ regions, ∃ q : ℚ, r.geom.dist p = .fin q)
    (hnear : ∃ r ∈ regions, qdist r p ≤ m * mile)
    (hy : rowminQ (qrows regions p) = some y) :
    proximity_core regions p (.fin m) =
      .inRange true (y.1.geom.contains p)
        ⟨y.1.name, y.1.cbsafp,
          if y.1.geom.contains p then .fin 0 else round2 (.fin (y.2 / mile)),
          y.1.geom.nearestPt p⟩
        (((qrows regions p).filter (fun z => decide (z.2 ≤ m * mile))).map
          (fun z => ⟨z.1.name, round2 (.fin (z.2 / mile)), z.1.cbsafp⟩)) := by
  have hex : ∃ z ∈ qrows regions p, z.2 ≤ m * mile := by
    rcases hnear with ⟨r, hr, hrm⟩
    exact ⟨(r, qdist r p), List.mem_map.mpr ⟨r, hr, rfl⟩, hrm⟩
  have hfilt : rowminQ ((qrows regions p).filter (fun z => decide (z.2 ≤ m * mile))) =
      some y := by
    rw [rowminQ_filter (m * mile) _ hex, hy]
  have hne : (qrows regions p).filter (fun z => decide (z.2 ≤ m * mile)) ≠ [] := by
    intro hc
    rw [hc] at hfilt
    simp [rowminQ] at hfilt
  simp only [proximity_core, rows_eq_qrows regions p hfin, rowmin_map_fin, hy,
    Option.map_some', pyMulMile, filter_map_fin]
  have hcond : (((qrows regions p).filter (fun z => decide (z.2 ≤ m * mile))).map
      (fun x => (x.1, PyFloat.fin x.2))).isEmpty = false := by
    simp only [List.isEmpty_eq_false, ne_eq, List.map_eq_nil_iff]
    exact hne
  rw [hcond]
  simp only [Bool.false_eq_true, if_false]
  rw [hfilt]
  simp only [Option.map_some', pyDivMile, List.map_map]
  rfl

/-! ## Dispatch lemmas for `check_proximity`. -/

/-- When all three parameters parse and the exclusion check is negative,
the handler runs the distance computation. -/
theorem check_proximity_normal (regions : List Region) (latS lonS maxS : String)
    (la lo md : PyFloat)
    (h1 : pyFloat? latS = some la) (h2 : pyFloat? lonS = some lo)
    (h3 : pyFloat? maxS = some md)
    (hex : excluded_state_of regions (la, lo) = none) :
    check_proximity (some regions) (some latS) (some lonS) (some maxS) =
      proximity_core regions (la, lo) md := by
  simp only [check_proximity, h1, h2, h3, hex]

/-- When all three parameters parse and the exclusion check fires, the
handler returns the exclusion short-circuit response. -/
theorem check_proximity_excl (regions : List Region) (latS lonS maxS : String)
    (la lo md : PyFloat) (s : String)
    (h1 : pyFloat? latS = some la) (h2 : pyFloat? lonS = some lo)
    (h3 : pyFloat? maxS = some md)
    (hex : excluded_state_of regions (la, lo) = some s) :
    check_proximity (some regions) (some latS) (some lonS) (some maxS) =
      .excluded s false ("We do not lend in " ++ s) := by
  simp only [check_proximity, h1, h2, h3, hex]

/-- A row returned by `rowmin` is a row of the list. -/
theorem rowmin_mem : ∀ {l : List (Region × PyFloat)} {y},
    rowmin l = some y → y ∈ l := by
  intro l
  induction l with
  | nil => intro y h; simp [rowmin] at h
  | cons x xs ih =>
    intro y h
    simp only [rowmin] at h
    cases hxs : rowmin xs with
    | none =>
      rw [hxs] at h
      by_cases hx : x.2.isNan = true <;> simp [hx] at h
      simp [h.symm]
    | some z =>
      rw [hxs] at h
      by_cases hx : x.2.isNan = true
      · simp only [hx, if_true, Option.some.injEq] at h
        exact List.mem_cons_of_mem _ (h ▸ ih hxs)
      · simp only [hx, Bool.false_eq_true, if_false] at h
        by_cases hc : pyLe x.2 z.2 = true <;> simp [hc] at h
        · simp [h.symm]
        · exact List.mem_cons_of_mem _ (h ▸ ih hxs)

/-- `rowmin` succeeds as soon as some row's value is not NaN. -/
theorem rowmin_isSome : ∀ {l : List (Region × PyFloat)},
    (∃ x ∈ l, x.2.isNan = false) → ∃ y, rowmin l = some y ∧ y ∈ l := by
  intro l
  induction l with
  | nil => intro h; simp at h
  | cons x xs ih =>
    intro h
    by_cases hx : x.2.isNan = false
    · cases hxs : rowmin xs with
      | none => exact ⟨x, by simp [rowmin, hxs, hx], List.mem_cons_self x xs⟩
      | some z =>
        by_cases hc : pyLe x.2 z.2 = true
        · exact ⟨x, by simp [rowmin, hxs, hx, hc], List.mem_cons_self x xs⟩
        · exact ⟨z, by simp [rowmin, hxs, hx, hc],
            List.mem_cons_of_mem _ (rowmin_mem hxs)⟩
    · have hex : ∃ z ∈ xs, z.2.isNan = false := by
        rcases h with ⟨z, hz, hzn⟩
        rcases List.mem_cons.mp hz with rfl | hz2
        · exact absurd hzn hx
        · exact ⟨z, hz2, hzn⟩
      rcases ih hex with ⟨y, hy, hymem⟩
      have hxn : x.2.isNan = true := by
        cases hv : x.2.isNan
        · exact absurd hv hx
        · rfl
      exact ⟨y, by simp [rowmin, hy, hxn], List.mem_cons_of_mem _ hymem⟩

/-! ## Invariance of the exclusion path under distance changes. -/

/-- Two stores agree at `p` when corresponding regions share their name and
their containment verdict at `p`; their distance functions may differ
arbitrarily. -/
def AgreesAt (p : Point) (rs rs' : List Region) : Prop :=
  List.Forall₂ (fun r r' => r.name = r'.name ∧ r.geom.contains p = r'.geom.contains p) rs rs'

/-- The state lookup reads only region names and containment verdicts, so
it is identical on stores that agree at the query point. -/
theorem get_state_agrees {p : Point} {rs rs' : List Region} (h : AgreesAt p rs rs') :
    get_state_from_coords rs p = get_state_from_coords rs' p := by
  induction h with
  | nil => rfl
  | @cons a b l1 l2 hab hrest ih =>
    rcases hab with ⟨hname, hcont⟩
    unfold get_state_from_coords at ih ⊢
    rw [List.find?_cons, List.find?_cons]
    cases hc : a.geom.contains p with
    | true =>
      have hb : b.geom.contains p = true := hcont ▸ hc
      simp only [hc, hb, hname]
    | false =>
      have hb : b.geom.contains p = false := hcont ▸ hc
      simp only [hc, hb]
      exact ih

/-! ## Concrete geometries and regions for closed statements. -/

/-- A test polygon that strictly contains every point (distance 0
everywhere). -/
def wholePlane : Geometry where
  contains := fun _ => true
  dist := fun _ => .fin 0
  nearestPt := fun _ => (.fin 0, .fin 0)
  dist_zero := fun _ _ => rfl
  dist_nonneg := fun _ q h => by injection h with h1; rw [← h1]

/-- A test polygon containing no point, at constant boundary distance `d`
(meters); `constGeom 0` models a polygon whose boundary touches the query
point without containing it (shapely `contains` is false on the
boundary). -/
def constGeom (d : ℚ) (hd : 0 ≤ d) : Geometry where
  contains := fun _ => false
  dist := fun _ => .fin d
  nearestPt := fun _ => (.fin 7, .fin 8)
  dist_zero := fun _ h => Bool.noConfusion h
  dist_nonneg := fun _ q h => by injection h with h1; rw [← h1]; exact hd

def nyRegion : Region := ⟨"Buffalo, NY", "15380", wholePlane⟩
def akRegion : Region := ⟨"Juneau, AK", "27940", wholePlane⟩
def tvRegion : Region := ⟨"Testville", "0003", wholePlane⟩
def touchRegion : Region := ⟨"Touchville", "0004", constGeom 0 le_rfl⟩
def insideRegion : Region := ⟨"Insideville", "0005", wholePlane⟩
def farARegion : Region := ⟨"Aville", "0001", constGeom 200000 (by norm_num)⟩
def farBRegion : Region := ⟨"Bville", "0002", constGeom 150000 (by norm_num)⟩
def nearRegion : Region := ⟨"Nearville", "0006", constGeom 50000 (by norm_num)⟩

/-! ## Definitions written from the claims' words (for comparison with the
code's definitions). -/

/-- The long-form (full-name) members of the exclusion set — the claim's
"long-form list". -/
def LONG_FORM_STATES : List String :=
  ["Hawaii", "Alaska", "Florida", "New York", "New Jersey",
   "North Dakota", "South Dakota"]

/-- Jurisdiction extraction exactly as the claim states it: split the name
on both `,` and `-` into trimmed tokens; left to right, return the first
token that is exactly two characters and entirely uppercase letters;
otherwise, a token containing a long-form exclusion name (full names only)
returns that name; else null.  Written from the claim's words, to be
compared with `get_state_from_name` (the code). -/
def extractJurisdiction_claim (name : String) : Option String :=
  go (splitBy (fun c => c = ',' || c = '-') name.data)
where
  go : List (List Char) → Option String
    | [] => none
    | t :: ts =>
      let tok := trimChars t
      if tok.length = 2 ∧ tok.all (fun c => c.isUpper) then some ⟨tok⟩
      else
        match LONG_FORM_STATES.find? (fun st => isSub st.data tok) with
        | some st => some st
        | none => go ts

/-- The amended extraction: as the claim states it, except that (i) a
two-character token matches under Python `isupper` (all cased characters
uppercase and at least one cased — so `"A1"` qualifies), and (ii) the
substring fallback checks every member of the exclusion set, two-letter
abbreviations included.  The tokenization is written the claim's way
(split on both separators at once instead of replace-then-split) and the
scan as a first-match combinator instead of the code's explicit loop. -/
def extractJurisdiction_amended (name : String) : Option String :=
  (splitBy (fun c => c = ',' || c = '-') name.data).findSome?
    (fun t => tokenState (trimChars t))

/-- The code's token loop is the first-match combinator. -/
theorem go_eq_findSome (l : List (List Char)) :
    get_state_from_name.go l = l.findSome? (fun t => tokenState (trimChars t)) := by
  induction l with
  | nil => rfl
  | cons p ps ih =>
    simp only [get_state_from_name.go, List.findSome?_cons]
    cases tokenState (trimChars p) <;> simp [ih]

/-- Replacing `-` by `,` and splitting on `,` tokenizes exactly like
splitting on both separators. -/
theorem splitBy_replace (cs : List Char) :
    splitBy (fun c => decide (c = ','))
        (cs.map (fun c => if c = '-' then ',' else c)) =
      splitBy (fun c => decide (c = ',') || decide (c = '-')) cs := by
  induction cs with
  | nil => rfl
  | cons c cs ih =>
    by_cases h1 : c = '-'
    · subst h1
      simp [splitBy, ih]
    · by_cases h2 : c = ','
      · subst h2
        simp [splitBy, ih]
      · simp [splitBy, h1, h2, ih]

/-- The allow-list retention rule exactly as the claim states it: the
record's name is lowercased, a trailing `" msa"` area suffix stripped, the
part before the first comma taken, and the record is retained when this is
a substring of some allow-list entry processed the same way.  Written from
the claim's words, to be compared with `matches_target` (the code). -/
def claimNorm (s : String) : List Char :=
  let cs := s.data.map Char.toLower
  let cs2 := if " msa".data.isSuffixOf cs then cs.take (cs.length - 4) else cs
  cs2.takeWhile (fun c => !(c = ','))

def matches_target_claim (target_names : List String) (census_name : String) : Bool :=
  target_names.any (fun t => isSub (claimNorm census_name) (claimNorm t))

/-! ## The claims. -/

/-- **C2, counterexample.**  The claim's extraction algorithm (two-letter
tokens must be entirely uppercase *letters*; the substring fallback uses
the long-form names *only*) disagrees with the code: on `"XFLY"` the code
returns `"FL"` — the two-letter abbreviation `"FL"` is found as a substring
because `get_state_from_coords` scans every member of `EXCLUDED_STATES`,
not just the long-form names — where the claim's algorithm returns null;
and on `"A1"` the code returns `"A1"` — Python's `isupper()` accepts a
digit next to an uppercase letter — where the claim's algorithm returns
null. -/
theorem C2_counterexample :
    get_state_from_name "XFLY" = some "FL" ∧ extractJurisdiction_claim "XFLY" = none ∧
    get_state_from_name "A1" = some "A1" ∧ extractJurisdiction_claim "A1" = none := by
  refine ⟨by decide, by decide, by decide, by decide⟩

/-- **C2, amended.**  Jurisdiction extraction splits the name on both `,`
and `-` into trimmed tokens and, left to right, returns the first token
that is exactly two characters and satisfies Python `isupper` (all cased
characters uppercase, at least one cased); otherwise, if a token contains
as a substring any member of the exclusion set (two-letter abbreviations
included, not only long-form names), it returns that member; if no token
matches it returns null.  In particular, extraction on
`"Miami-Fort Lauderdale-Pompano Beach, FL"` yields `"FL"` and on
`"Portland-Vancouver-Hillsboro, OR-WA"` yields `"OR"`. -/
theorem C2_extraction_amended :
    (∀ name, get_state_from_name name = extractJurisdiction_amended name) ∧
    get_state_from_name "Miami-Fort Lauderdale-Pompano Beach, FL" = some "FL" ∧
    get_state_from_name "Portland-Vancouver-Hillsboro, OR-WA" = some "OR" := by
  refine ⟨fun name => ?_, by decide, by decide⟩
  unfold get_state_from_name extractJurisdiction_amended
  rw [splitBy_replace, go_eq_findSome]

/-- **C5, counterexample.**  The claim has the substring direction
backwards: the code normalizes the *allow-list entry* and tests it as a
substring of the whole lowercased record name, not the record's normalized
name as a substring of the entry.  With allow-list entry `"Xyz"` and a
record named `"X"`, the claim's rule retains the record (`"x"` is a
substring of `"xyz"`) while the code's `matches_target` rejects it
(`"xyz"` is not a substring of `"x"`). -/
theorem C5_counterexample :
    matches_target_claim ["Xyz"] "X" = true ∧ matches_target ["Xyz"] "X" = false := by
  refine ⟨by decide, by decide⟩

/-- **C5, amended.**  A loaded record is retained by a non-empty allow-list
filter iff *some allow-list entry* — its part before the first comma,
lowercased, trimmed, with every occurrence of `" msa"` removed and trimmed
again — occurs as a substring of the record's lowercased (unmodified) full
name; with an empty allow-list all records are kept.  In particular, with
allow-list entry `"Phoenix-Mesa-Chandler, AZ MSA"`, a region named
`"Phoenix-Mesa-Chandler, AZ Metro Statistical Area"` is retained. -/
theorem C5_allowlist_amended :
    (∀ target_names census_name, matches_target target_names census_name = true ↔
      ∃ t ∈ target_names,
        isSub (normTarget t) (census_name.data.map Char.toLower) = true) ∧
    (∀ target_names rs r, target_names ≠ [] →
      (r ∈ filter_regions target_names rs ↔
        r ∈ rs ∧ matches_target target_names r.name = true)) ∧
    matches_target ["Phoenix-Mesa-Chandler, AZ MSA"]
      "Phoenix-Mesa-Chandler, AZ Metro Statistical Area" = true := by
  refine ⟨fun ts cn => ?_, fun ts rs r hne => ?_, by decide⟩
  · simp [matches_target, List.any_eq_true]
  · unfold filter_regions
    rw [if_neg (by simpa [List.isEmpty_iff] using hne)]
    simp [List.mem_filter]

/-- **C8, counterexample.**  After a load attempt that fails (missing
shapefile), the store stays `None`, so the *next* `ensure_metro_data_loaded`
call does invoke `load_metro_data` again: the claim's "later calls never
re-attempt the load" is false (the second component records whether the
call invoked the loader). -/
theorem C8_counterexample :
    ensure_metro_data_loaded .missing none = (none, true) ∧
    ensure_metro_data_loaded .missing
      (ensure_metro_data_loaded .missing none).1 = (none, true) :=
  ⟨rfl, rfl⟩

/-- **C8, amended.**  `ensure_metro_data_loaded` triggers the load exactly
when the store is unloaded: after a successful load every later call is a
no-op, but a failed load leaves the store unloaded, so the next call
*re-attempts* the load (contrary to the claim's "never re-attempt"). -/
theorem C8_lazy_load_amended :
    (∀ env rs, ensure_metro_data_loaded env (some rs) = (some rs, false)) ∧
    (∀ raw tg, ensure_metro_data_loaded (.found raw tg) none =
      (some (filter_regions tg raw), true)) ∧
    ensure_metro_data_loaded .missing none = (none, true) :=
  ⟨fun _ _ => rfl, fun _ _ => rfl, rfl⟩

/-- `proximity_core` never produces the exclusion response. -/
theorem proximity_core_ne_excluded (regions : List Region) (p : Point)
    (md : PyFloat) (s : String) (wr : Bool) (msg : String) :
    proximity_core regions p md ≠ .excluded s wr msg := by
  intro h
  simp only [proximity_core] at h
  repeat' split at h
  all_goals exact Response.noConfusion h

/-- **C10.**  Every exclusion response carries `within_range = false`
unconditionally: line 511 of `app.py` hard-codes `"within_range": False`
in the short-circuit response, whatever the point's true proximity status
is, masking it in the returned flags. -/
theorem C10_excluded_within_range_false :
    ∀ (store : Option (List Region)) (latArg lonArg maxArg : Option String)
      (s : String) (wr : Bool) (msg : String),
      check_proximity store latArg lonArg maxArg = .excluded s wr msg →
      wr = false := by
  intro store latArg lonArg maxArg s wr msg h
  simp only [check_proximity] at h
  repeat' split at h
  all_goals
    first
    | exact Response.noConfusion h
    | (injection h with h1 h2 h3; exact h2.symm)
    | exact absurd h (proximity_core_ne_excluded _ _ _ _ _ _)

/-- **C10, witness.**  A store whose single region (an excluded-state
metro) strictly contains the query point, queried well within the radius:
the result is the exclusion response and its `within_range` is `false`
even though the point is inside a loaded metro region. -/
theorem C10_witness :
    check_proximity (some [nyRegion]) (some "1") (some "2") (some "50") =
      .excluded "NY" false "We do not lend in NY" ∧
    nyRegion.geom.contains (.fin 1, .fin 2) = true ∧ false = false :=
  ⟨by decide, by decide,
    C10_excluded_within_range_false (some [nyRegion]) (some "1") (some "2") (some "50")
      "NY" false "We do not lend in NY" (by decide)⟩

/-- **C1.**  When the first loaded region containing the query point has a
name whose extracted state is excluded, `check_proximity` short-circuits
with the exclusion response — a response carrying only `excluded_state`,
`within_range` and `message`, with no distance or nearest-metro fields —
and the result is unchanged under arbitrary modification of every region's
distance function (second conjunct), so no distance computation can have
contributed to it. -/
theorem C1_exclusion_shortcircuit (regions : List Region) (latS lonS maxS : String)
    (la lo md : PyFloat) (s : String)
    (h1 : pyFloat? latS = some la) (h2 : pyFloat? lonS = some lo)
    (h3 : pyFloat? maxS = some md)
    (hs : get_state_from_coords regions (la, lo) = some s)
    (hexc : is_excluded_state s = true) :
    check_proximity (some regions) (some latS) (some lonS) (some maxS) =
      .excluded s false ("We do not lend in " ++ s) ∧
    ∀ regions', AgreesAt (la, lo) regions regions' →
      check_proximity (some regions') (some latS) (some lonS) (some maxS) =
        .excluded s false ("We do not lend in " ++ s) := by
  have hex : excluded_state_of regions (la, lo) = some s := by
    simp [excluded_state_of, hs, hexc]
  refine ⟨check_proximity_excl regions latS lonS maxS la lo md s h1 h2 h3 hex, ?_⟩
  intro regions' hag
  have hs' : get_state_from_coords regions' (la, lo) = some s :=
    (get_state_agrees hag) ▸ hs
  have hex' : excluded_state_of regions' (la, lo) = some s := by
    simp [excluded_state_of, hs', hexc]
  exact check_proximity_excl regions' latS lonS maxS la lo md s h1 h2 h3 hex'

/-- **C1, witness.**  A store whose single region is named `"Juneau, AK"`
and contains the query point: the query returns the exclusion
short-circuit for `"AK"`. -/
theorem C1_witness :
    get_state_from_coords [akRegion] (.fin 1, .fin 2) = some "AK" ∧
    is_excluded_state "AK" = true ∧
    check_proximity (some [akRegion]) (some "1") (some "2") (some "50") =
      .excluded "AK" false "We do not lend in AK" :=
  ⟨by decide, by decide,
    (C1_exclusion_shortcircuit [akRegion] "1" "2" "50" (.fin 1) (.fin 2) (.fin 50) "AK"
      (by decide) (by decide) (by decide) (by decide) (by decide)).1⟩

/-- **C3, counterexample.**  Two inputs refute the claim as stated.  With a
negative requested radius, a point strictly inside the single loaded region
gets the out-of-range response (`is_inside_metro = false`), because the
radius filter `distance <= max_distance_meters` keeps nothing.  And when an
earlier-loaded region touches the point at boundary distance zero without
containing it, pandas' first-minimum tie-break selects that earlier region,
so a point strictly inside a later region is reported with
`is_inside_metro = false` (and a rounded distance instead of the inside
short-circuit). -/
theorem C3_counterexample :
    tvRegion.geom.contains (.fin 1, .fin 2) = true ∧
    check_proximity (some [tvRegion]) (some "1") (some "2") (some "-1") =
      .outOfRange false false ⟨"Testville", "0003", .fin 0, (.fin 0, .fin 0)⟩ ∧
    insideRegion.geom.contains (.fin 1, .fin 2) = true ∧
    check_proximity (some [touchRegion, insideRegion]) (some "1") (some "2") (some "50") =
      .inRange true false ⟨"Touchville", "0004", .fin 0, (.fin 7, .fin 8)⟩
        [⟨"Touchville", .fin 0, "0004"⟩, ⟨"Insideville", .fin 0, "0005"⟩] := by
  refine ⟨by decide, by decide, by decide, by decide⟩

/-- **C3, amended.**  For every point strictly inside some loaded region's
polygon (and not in an excluded jurisdiction), *provided* the requested
radius is nonnegative and every loaded region at boundary distance zero
from the point actually contains it (the point lies on no loaded region's
boundary), `check_proximity` returns `is_inside_metro = true` and
`distance_to_edge_miles = 0` (within range). -/
theorem C3_inside_metro_amended (regions : List Region) (latS lonS maxS : String)
    (la lo : PyFloat) (m : ℚ)
    (h1 : pyFloat? latS = some la) (h2 : pyFloat? lonS = some lo)
    (h3 : pyFloat? maxS = some (.fin m)) (hm : 0 ≤ m)
    (hfin : ∀ r ∈ regions, ∃ q : ℚ, r.geom.dist (la, lo) = .fin q)
    (hex : excluded_state_of regions (la, lo) = none)
    (hin : ∃ r ∈ regions, r.geom.contains (la, lo) = true)
    (hzero : ∀ r ∈ regions, qdist r (la, lo) = 0 → r.geom.contains (la, lo) = true) :
    ∃ (nm cb : String) (ec : Point) (lst : List MetroInfo),
      check_proximity (some regions) (some latS) (some lonS) (some maxS) =
        .inRange true true ⟨nm, cb, .fin 0, ec⟩ lst := by
  rcases hin with ⟨r0, hr0, hc0⟩
  have hd0 : qdist r0 (la, lo) = 0 := by
    unfold qdist
    rw [r0.geom.dist_zero _ hc0]
  have hmem0 : (r0, qdist r0 (la, lo)) ∈ qrows regions (la, lo) := by
    unfold qrows
    exact List.mem_map.mpr ⟨r0, hr0, rfl⟩
  cases hy : rowminQ (qrows regions (la, lo)) with
  | none =>
    rw [rowminQ_eq_none.mp hy] at hmem0
    exact absurd hmem0 (List.not_mem_nil _)
  | some y =>
    rcases mem_qrows (rowminQ_mem hy) with ⟨hy1, hy2⟩
    have hyle : y.2 ≤ 0 := hd0 ▸ rowminQ_min hy _ hmem0
    have hyge : 0 ≤ y.2 := by
      rcases hfin y.1 hy1 with ⟨q, hq⟩
      have : qdist y.1 (la, lo) = q := by unfold qdist; rw [hq]
      rw [hy2, this]
      exact y.1.geom.dist_nonneg _ q hq
    have hy0 : y.2 = 0 := le_antisymm hyle hyge
    have hycont : y.1.geom.contains (la, lo) = true :=
      hzero y.1 hy1 (by rw [← hy2, hy0])
    have hnear : ∃ r ∈ regions, qdist r (la, lo) ≤ m * mile := by
      refine ⟨r0, hr0, ?_⟩
      rw [hd0]
      exact mul_nonneg hm (by norm_num [mile])
    refine ⟨y.1.name, y.1.cbsafp, y.1.geom.nearestPt (la, lo),
      ((qrows regions (la, lo)).filter (fun z => decide (z.2 ≤ m * mile))).map
        (fun z => ⟨z.1.name, round2 (.fin (z.2 / mile)), z.1.cbsafp⟩), ?_⟩
    rw [check_proximity_normal regions latS lonS maxS la lo (.fin m) h1 h2 h3 hex,
      proximity_core_in regions (la, lo) m y hfin hnear hy, hycont]
    simp

/-- **C3, witness.**  A point strictly inside the single loaded region with
the default 50-mile radius: `is_inside_metro = true`, zero distance. -/
theorem C3_witness :
    ∃ (nm cb : String) (ec : Point) (lst : List MetroInfo),
      check_proximity (some [insideRegion]) (some "1") (some "2") (some "50") =
        .inRange true true ⟨nm, cb, .fin 0, ec⟩ lst :=
  C3_inside_metro_amended [insideRegion] "1" "2" "50" (.fin 1) (.fin 2) 50
    (by decide) (by decide) (by decide) (by norm_num)
    (by intro r hr; rw [List.mem_singleton] at hr; subst hr; exact ⟨0, rfl⟩)
    (by decide)
    ⟨insideRegion, List.mem_singleton.mpr rfl, rfl⟩
    (by intro r hr h0; rw [List.mem_singleton] at hr; subst hr; rfl)

/-- **C4.**  When every loaded region's planar boundary distance exceeds
the requested radius (converted at 1 mile = 1609.34 m), the result is the
`within_range = false` response that still reports the globally nearest
region — the first row of minimum distance across *all* loaded regions,
independent of the radius — with its name, code, rounded mile distance and
nearest boundary point. -/
theorem C4_out_of_range (regions : List Region) (latS lonS maxS : String)
    (la lo : PyFloat) (m : ℚ) (y : Region × ℚ)
    (h1 : pyFloat? latS = some la) (h2 : pyFloat? lonS = some lo)
    (h3 : pyFloat? maxS = some (.fin m)) (hm : 0 ≤ m)
    (hfin : ∀ r ∈ regions, ∃ q : ℚ, r.geom.dist (la, lo) = .fin q)
    (hfar : ∀ r ∈ regions, ¬ qdist r (la, lo) ≤ m * mile)
    (hy : rowminQ (qrows regions (la, lo)) = some y) :
    check_proximity (some regions) (some latS) (some lonS) (some maxS) =
      .outOfRange false false
        ⟨y.1.name, y.1.cbsafp, round2 (.fin (y.2 / mile)),
          y.1.geom.nearestPt (la, lo)⟩ ∧
    y.1 ∈ regions ∧ y.2 = qdist y.1 (la, lo) ∧
    ∀ r ∈ regions, y.2 ≤ qdist r (la, lo) := by
  -- No region can contain the point: containment would force boundary
  -- distance zero, within the (nonnegative) radius.  So the exclusion
  -- check cannot fire.
  have hnc : ∀ r ∈ regions, ¬ r.geom.contains (la, lo) = true := by
    intro r hr hc
    refine hfar r hr ?_
    have : qdist r (la, lo) = 0 := by
      unfold qdist
      rw [r.geom.dist_zero _ hc]
    rw [this]
    exact mul_nonneg hm (by norm_num [mile])
  have hex : excluded_state_of regions (la, lo) = none := by
    unfold excluded_state_of get_state_from_coords
    rw [List.find?_eq_none.mpr hnc]
  refine ⟨?_, (mem_qrows (rowminQ_mem hy)).1, (mem_qrows (rowminQ_mem hy)).2, ?_⟩
  · rw [check_proximity_normal regions latS lonS maxS la lo (.fin m) h1 h2 h3 hex]
    exact proximity_core_out regions (la, lo) m y hfin hfar hy
  · intro r hr
    refine rowminQ_min hy (r, qdist r (la, lo)) ?_
    unfold qrows
    exact List.mem_map.mpr ⟨r, hr, rfl⟩

/-- **C4, witness.**  Two regions at 200 km and 150 km against a 50-mile
radius (≈ 80.467 km): nothing is within range, and the reported nearest is
the 150 km region with its rounded mile distance (93.21). -/
theorem C4_witness :
    check_proximity (some [farARegion, farBRegion]) (some "1") (some "2") (some "50") =
      .outOfRange false false
        ⟨"Bville", "0002", .fin (9321 / 100), (.fin 7, .fin 8)⟩ ∧
    farBRegion ∈ [farARegion, farBRegion] ∧
    (150000 : ℚ) = qdist farBRegion (.fin 1, .fin 2) ∧
    ∀ r ∈ [farARegion, farBRegion], (150000 : ℚ) ≤ qdist r (.fin 1, .fin 2) :=
  C4_out_of_range [farARegion, farBRegion] "1" "2" "50" (.fin 1) (.fin 2) 50
    (farBRegion, 150000) (by decide) (by decide) (by decide) (by norm_num)
    (by
      intro r hr
      rcases List.mem_cons.mp hr with rfl | hr2
      · exact ⟨200000, rfl⟩
      · rw [List.mem_singleton] at hr2; subst hr2; exact ⟨150000, rfl⟩)
    (by
      intro r hr
      rcases List.mem_cons.mp hr with rfl | hr2
      · show ¬ (200000 : ℚ) ≤ 50 * mile
        norm_num [mile]
      · rw [List.mem_singleton] at hr2
        subst hr2
        show ¬ (150000 : ℚ) ≤ 50 * mile
        norm_num [mile])
    (by
      show rowminQ [(farARegion, (200000 : ℚ)), (farBRegion, (150000 : ℚ))] = _
      simp [rowminQ]
      norm_num)

/-- **C6.**  Whenever some loaded region lies within the requested radius,
the minimum-distance row picked from the filtered set is the globally
minimal row (`rowminQ` of the filtered rows equals `rowminQ` of all rows),
and the within-range response therefore reports that same region. -/
theorem C6_filtered_min_is_global (regions : List Region) (latS lonS maxS : String)
    (la lo : PyFloat) (m : ℚ) (y : Region × ℚ)
    (h1 : pyFloat? latS = some la) (h2 : pyFloat? lonS = some lo)
    (h3 : pyFloat? maxS = some (.fin m))
    (hfin : ∀ r ∈ regions, ∃ q : ℚ, r.geom.dist (la, lo) = .fin q)
    (hex : excluded_state_of regions (la, lo) = none)
    (hnear : ∃ r ∈ regions, qdist r (la, lo) ≤ m * mile)
    (hy : rowminQ (qrows regions (la, lo)) = some y) :
    rowminQ ((qrows regions (la, lo)).filter (fun z => decide (z.2 ≤ m * mile))) =
      rowminQ (qrows regions (la, lo)) ∧
    check_proximity (some regions) (some latS) (some lonS) (some maxS) =
      .inRange true (y.1.geom.contains (la, lo))
        ⟨y.1.name, y.1.cbsafp,
          if y.1.geom.contains (la, lo) then .fin 0 else round2 (.fin (y.2 / mile)),
          y.1.geom.nearestPt (la, lo)⟩
        (((qrows regions (la, lo)).filter (fun z => decide (z.2 ≤ m * mile))).map
          (fun z => ⟨z.1.name, round2 (.fin (z.2 / mile)), z.1.cbsafp⟩)) ∧
    y.1 ∈ regions ∧ ∀ r ∈ regions, y.2 ≤ qdist r (la, lo) := by
  have hex2 : ∃ z ∈ qrows regions (la, lo), z.2 ≤ m * mile := by
    rcases hnear with ⟨r, hr, hrm⟩
    refine ⟨(r, qdist r (la, lo)), ?_, hrm⟩
    unfold qrows
    exact List.mem_map.mpr ⟨r, hr, rfl⟩
  refine ⟨rowminQ_filter (m * mile) _ hex2, ?_, (mem_qrows (rowminQ_mem hy)).1, ?_⟩
  · rw [check_proximity_normal regions latS lonS maxS la lo (.fin m) h1 h2 h3 hex]
    exact proximity_core_in regions (la, lo) m y hfin hnear hy
  · intro r hr
    refine rowminQ_min hy (r, qdist r (la, lo)) ?_
    unfold qrows
    exact List.mem_map.mpr ⟨r, hr, rfl⟩

/-- **C6, witness.**  A far region (200 km) before a near one (50 km ≤ the
50-mile radius): the filtered minimum equals the global minimum and the
response reports the near region. -/
theorem C6_witness :
    rowminQ ((qrows [farARegion, nearRegion] (.fin 1, .fin 2)).filter
        (fun z => decide (z.2 ≤ 50 * mile))) =
      rowminQ (qrows [farARegion, nearRegion] (.fin 1, .fin 2)) ∧
    check_proximity (some [farARegion, nearRegion]) (some "1") (some "2") (some "50") =
      .inRange true (nearRegion.geom.contains (.fin 1, .fin 2))
        ⟨"Nearville", "0006",
          if nearRegion.geom.contains (.fin 1, .fin 2) then .fin 0
          else round2 (.fin (50000 / mile)),
          (.fin 7, .fin 8)⟩
        (((qrows [farARegion, nearRegion] (.fin 1, .fin 2)).filter
            (fun z => decide (z.2 ≤ 50 * mile))).map
          (fun z => ⟨z.1.name, round2 (.fin (z.2 / mile)), z.1.cbsafp⟩)) ∧
    nearRegion ∈ [farARegion, nearRegion] ∧
    ∀ r ∈ [farARegion, nearRegion], (50000 : ℚ) ≤ qdist r (.fin 1, .fin 2) :=
  C6_filtered_min_is_global [farARegion, nearRegion] "1" "2" "50" (.fin 1) (.fin 2) 50
    (nearRegion, 50000) (by decide) (by decide) (by decide)
    (by
      intro r hr
      rcases List.mem_cons.mp hr with rfl | hr2
      · exact ⟨200000, rfl⟩
      · rw [List.mem_singleton] at hr2; subst hr2; exact ⟨50000, rfl⟩)
    (by decide)
    (⟨nearRegion, by simp, by show (50000 : ℚ) ≤ 50 * mile; norm_num [mile]⟩)
    (by
      show rowminQ [(farARegion, (200000 : ℚ)), (nearRegion, (50000 : ℚ))] = _
      simp [rowminQ]
      norm_num)

/-- A value the radius filter accepts is not NaN. -/
theorem pyLe_not_nan {x y : PyFloat} (h : pyLe x y = true) : x.isNan = false := by
  cases x <;> cases y <;> simp_all [pyLe, PyFloat.isNan]

/-- **C9.**  When jurisdiction extraction finds no matching token (the
state lookup returns null), the query is treated as not excluded: the
handler proceeds to the distance computation, which — on a non-empty store
with finite distances — produces a normal proximity result (out-of-range or
in-range), never the exclusion response or an error. -/
theorem C9_null_state_not_excluded (regions : List Region) (latS lonS maxS : String)
    (la lo md : PyFloat)
    (h1 : pyFloat? latS = some la) (h2 : pyFloat? lonS = some lo)
    (h3 : pyFloat? maxS = some md)
    (hne : regions ≠ [])
    (hfin : ∀ r ∈ regions, ∃ q : ℚ, r.geom.dist (la, lo) = .fin q)
    (hs : get_state_from_coords regions (la, lo) = none) :
    check_proximity (some regions) (some latS) (some lonS) (some maxS) =
      proximity_core regions (la, lo) md ∧
    ((∃ info, proximity_core regions (la, lo) md = .outOfRange false false info) ∨
     (∃ b info lst, proximity_core regions (la, lo) md = .inRange true b info lst)) := by
  have hex : excluded_state_of regions (la, lo) = none := by
    simp [excluded_state_of, hs]
  refine ⟨check_proximity_normal regions latS lonS maxS la lo md h1 h2 h3 hex, ?_⟩
  obtain ⟨r0, hr0⟩ : ∃ r, r ∈ regions := by
    cases regions with
    | nil => exact absurd rfl hne
    | cons a l => exact ⟨a, List.mem_cons_self a l⟩
  rcases hfin r0 hr0 with ⟨q0, hq0⟩
  have hr0mem : (r0, r0.geom.dist (la, lo)) ∈
      regions.map (fun r => (r, r.geom.dist (la, lo))) :=
    List.mem_map.mpr ⟨r0, hr0, rfl⟩
  rcases rowmin_isSome ⟨(r0, r0.geom.dist (la, lo)), hr0mem, by rw [hq0]; rfl⟩
    with ⟨nO, hnO, _⟩
  simp only [proximity_core, hnO]
  by_cases hemp : ((regions.map (fun r => (r, r.geom.dist (la, lo)))).filter
      (fun rd => pyLe rd.2 (pyMulMile md))).isEmpty = true
  · rw [if_pos hemp]
    exact Or.inl ⟨_, rfl⟩
  · rw [if_neg hemp]
    have hnonempty : ∃ x ∈ (regions.map (fun r => (r, r.geom.dist (la, lo)))).filter
        (fun rd => pyLe rd.2 (pyMulMile md)), x.2.isNan = false := by
      cases hcase : (regions.map (fun r => (r, r.geom.dist (la, lo)))).filter
          (fun rd => pyLe rd.2 (pyMulMile md)) with
      | nil => rw [hcase] at hemp; exact absurd rfl hemp
      | cons a l =>
        have ha : a ∈ (regions.map (fun r => (r, r.geom.dist (la, lo)))).filter
            (fun rd => pyLe rd.2 (pyMulMile md)) := by
          rw [hcase]; exact List.mem_cons_self a l
        exact ⟨a, List.mem_cons_self a l, pyLe_not_nan (List.mem_filter.mp ha).2⟩
    rcases rowmin_isSome hnonempty with ⟨nr, hnr, _⟩
    rw [hnr]
    exact Or.inr ⟨_, _, _, rfl⟩

/-- **C9, witness.**  A region named `"Testville"` (no extractable state
token) containing the point: extraction yields null and the query still
produces a normal in-range result. -/
theorem C9_witness :
    check_proximity (some [tvRegion]) (some "1") (some "2") (some "50") =
      proximity_core [tvRegion] (.fin 1, .fin 2) (.fin 50) ∧
    ((∃ info, proximity_core [tvRegion] (.fin 1, .fin 2) (.fin 50) =
        .outOfRange false false info) ∨
     (∃ b info lst, proximity_core [tvRegion] (.fin 1, .fin 2) (.fin 50) =
        .inRange true b info lst)) :=
  C9_null_state_not_excluded [tvRegion] "1" "2" "50" (.fin 1) (.fin 2) (.fin 50)
    (by decide) (by decide) (by decide) (by simp)
    (by intro r hr; rw [List.mem_singleton] at hr; subst hr; exact ⟨0, rfl⟩)
    (by decide)

/-- **C7, counterexample.**  Three inputs refute the claim.  A missing
`lat` makes `float(None)` raise `TypeError`, which the generic 500 handler
catches — the response is the internal error, not `InvalidParameters`.  A
non-finite `lat` such as `"inf"` parses successfully, so no error at all is
returned (the query proceeds to a normal result).  A missing
`max_distance` silently defaults to `50` and equally returns no error. -/
theorem C7_counterexample :
    check_proximity (some [tvRegion]) none (some "2") (some "50") =
      .internalError floatNoneMsg ∧
    check_proximity (some [tvRegion]) none (some "2") (some "50") ≠ .invalidParams ∧
    pyFloat? "inf" = some .inf ∧
    check_proximity (some [tvRegion]) (some "inf") (some "2") (some "50") =
      .inRange true true ⟨"Testville", "0003", .fin 0, (.fin 0, .fin 0)⟩
        [⟨"Testville", .fin 0, "0003"⟩] ∧
    check_proximity (some [tvRegion]) (some "1") (some "2") none =
      check_proximity (some [tvRegion]) (some "1") (some "2") (some "50") := by
  refine ⟨by decide, by decide, by decide, by decide, by decide⟩

/-- **C7, amended.**  Parameter-validation behavior of `check_proximity`:
a missing `lat` or `lon` produces the generic internal error (the
`TypeError` from `float(None)` is not caught by the `ValueError` handler);
a present but unparseable `lat`, `lon` or `max_distance` produces
`InvalidParameters`; a missing `max_distance` defaults to `50` and is not
an error.  (Non-finite spellings such as `"inf"`/`"nan"` parse
successfully and are not rejected.) -/
theorem C7_invalid_params_amended :
    (∀ store lonArg maxArg, check_proximity store none lonArg maxArg =
      .internalError floatNoneMsg) ∧
    (∀ store latS la maxArg, pyFloat? latS = some la →
      check_proximity store (some latS) none maxArg = .internalError floatNoneMsg) ∧
    (∀ store latS lonArg maxArg, pyFloat? latS = none →
      check_proximity store (some latS) lonArg maxArg = .invalidParams) ∧
    (∀ store latS lonS la maxArg, pyFloat? latS = some la → pyFloat? lonS = none →
      check_proximity store (some latS) (some lonS) maxArg = .invalidParams) ∧
    (∀ store latS lonS maxS la lo, pyFloat? latS = some la → pyFloat? lonS = some lo →
      pyFloat? maxS = none →
      check_proximity store (some latS) (some lonS) (some maxS) = .invalidParams) ∧
    (∀ store latS lonS, check_proximity store (some latS) (some lonS) none =
      check_proximity store (some latS) (some lonS) (some "50")) := by
  refine ⟨fun store lonArg maxArg => rfl, ?_, ?_, ?_, ?_, ?_⟩
  · intro store latS la maxArg h
    simp only [check_proximity, h]
  · intro store latS lonArg maxArg h
    simp only [check_proximity, h]
  · intro store latS lonS la maxArg h h'
    simp only [check_proximity, h, h']
  · intro store latS lonS maxS la lo h h' h''
    simp only [check_proximity, h, h', h'']
  · intro store latS lonS
    have h50 : pyFloat? "50" = some (.fin 50) := by decide
    simp only [check_proximity, h50]

/-- **C7, witness.**  An unparseable `lat` string produces the 400
`InvalidParameters` response. -/
theorem C7_witness :
    check_proximity (some [tvRegion]) (some "abc") (some "2") (some "50") =
      .invalidParams :=
  C7_invalid_params_amended.2.2.1 (some [tvRegion]) "abc" (some "2") (some "50")
    (by decide)
